import Mathlib

/-!
# systematic: RAII wrappers over POSIX primitives

A shallow embedding of the header-only wrappers

* `systematic::posix::FileDescriptor`   (include/systematic/posix/FileDescriptor.hpp)
* `systematic::posix::MemoryMapping`    (include/systematic/posix/MemoryMapping.hpp)
* `systematic::pthread::setName`        (include/systematic/pthread/pthread.hpp)
* `cyboola_core::MemoryMapping`         (include/systematic/legacy/MemoryMapping.hpp)

The operating system is external to the code.  It is modelled by a `Kernel`:
an arbitrary function that answers each system call (return value and the
value of `errno` afterwards) from the current `World`, which is the
chronological log of the system calls issued so far together with `errno`.
Every wrapper operation is a state-passing function over `World`; an operation
that can throw returns an `Except system_error _` next to the new world.
-/

namespace Systematic

/-! ## The operating system interface -/

/-- A `void *` value, as an address.  -/
abbrev Ptr := Int

/-- The constant `nullptr`. -/
def nullptr : Ptr := 0

/-- The constant `MAP_FAILED` of `<sys/mman.h>`, that is `(void *) -1`. -/
def MAP_FAILED : Ptr := -1

/-- The system calls the wrappers issue, with their arguments. -/
inductive Syscall where
  | sys_open (path : String) (flags : Int)
  | sys_close (fd : Int)
  | sys_mmap (addr : Ptr) (length : Nat) (prot flags fd offset : Int)
  | sys_munmap (addr : Ptr) (length : Nat)
  | sys_pthread_setname_np (handle : Nat) (name : String)
  deriving DecidableEq, Repr

/-- One issued system call and the value it returned. -/
structure Event where
  call : Syscall
  ret : Int
  deriving DecidableEq, Repr

/-- The observable state of the process: the system calls issued so far, oldest
first, and the current value of `errno`. -/
structure World where
  log : List Event
  errno : Int
  deriving DecidableEq, Repr

/-- The world of a fresh process: nothing issued yet, `errno` zero. -/
def World.initial : World :=
  { log := [], errno := 0 }

/-- An operating system: for each world and call, the value the call returns
and the value of `errno` after it. -/
structure Kernel where
  respond : World → Syscall → Int × Int

/-- Issue one system call: the answer of the kernel is returned, the call is
appended to the log and `errno` takes the value the kernel left. -/
def syscall (k : Kernel) (c : Syscall) (w : World) : Int × World :=
  ((k.respond w c).1, { log := w.log ++ [⟨c, (k.respond w c).1⟩], errno := (k.respond w c).2 })

/-- The exception `std::system_error {code, std::system_category(), what_arg}`. -/
structure system_error where
  code : Int
  what_arg : String
  deriving DecidableEq, Repr

deriving instance DecidableEq for Except

/-! ## `systematic::posix::FileDescriptor` -/

namespace posix

/-- The class `FileDescriptor`: its only member is `int descriptor_ = -1`. -/
structure FileDescriptor where
  descriptor_ : Int := -1
  deriving DecidableEq, Repr

namespace FileDescriptor

/-- The constructor `explicit FileDescriptor(int descriptor) noexcept`. -/
def fromDescriptor (descriptor : Int) : FileDescriptor :=
  { descriptor_ := descriptor }

/-- The constructor `explicit FileDescriptor(std::string const& file_name, int flags)`:
`descriptor_` is initialised with the result of `::open`, and a negative
result throws `std::system_error {errno, std::system_category(), "open() failed"}`. -/
def fromPath (k : Kernel) (file_name : String) (flags : Int) (w : World) :
    Except system_error FileDescriptor × World :=
  let r := syscall k (.sys_open file_name flags) w
  if r.1 < 0 then
    (.error { code := r.2.errno, what_arg := "open() failed" }, r.2)
  else
    (.ok { descriptor_ := r.1 }, r.2)

/-- The move constructor `FileDescriptor(FileDescriptor&& other) noexcept`:
returns the new instance and `other` afterwards. -/
def moveCtor (other : FileDescriptor) : FileDescriptor × FileDescriptor :=
  ({ descriptor_ := other.descriptor_ }, { other with descriptor_ := -1 })

/-- The destructor `~FileDescriptor()`: `if (descriptor_ >= 0) ::close(descriptor_);`.
The value `::close` returns is discarded. -/
def dtor (k : Kernel) (self : FileDescriptor) (w : World) : Except system_error Unit × World :=
  if self.descriptor_ ≥ 0 then
    (.ok (), (syscall k (.sys_close self.descriptor_) w).2)
  else
    (.ok (), w)

/-- The move assignment `operator=(FileDescriptor&& other) noexcept`, which is
`std::swap(descriptor_, other.descriptor_)`: returns `*this` and `other` afterwards. -/
def moveAssign (self other : FileDescriptor) : FileDescriptor × FileDescriptor :=
  ({ self with descriptor_ := other.descriptor_ }, { other with descriptor_ := self.descriptor_ })

/-- The conversion `operator int() const noexcept`. -/
def toInt (self : FileDescriptor) : Int :=
  self.descriptor_

end FileDescriptor

/-! ## `systematic::posix::MemoryMapping` -/

/-- The class `MemoryMapping`: members `void * ptr_ = nullptr` and `size_t length_ = 0`. -/
structure MemoryMapping where
  ptr_ : Ptr := nullptr
  length_ : Nat := 0
  deriving DecidableEq, Repr

namespace MemoryMapping

/-- The constructor `MemoryMapping(size_t length, int prot, int flags, int fd, off_t offset)`:
`ptr_` is initialised with the result of `::mmap(nullptr, ...)`, `length_` with
`length`, and `ptr_ == MAP_FAILED` throws
`std::system_error {errno, std::system_category(), "mmap() failed"}`. -/
def ctor (k : Kernel) (length : Nat) (prot flags fd offset : Int) (w : World) :
    Except system_error MemoryMapping × World :=
  let r := syscall k (.sys_mmap nullptr length prot flags fd offset) w
  if r.1 = MAP_FAILED then
    (.error { code := r.2.errno, what_arg := "mmap() failed" }, r.2)
  else
    (.ok { ptr_ := r.1, length_ := length }, r.2)

/-- The member `void swap(MemoryMapping& other) noexcept`:
`std::swap(ptr_, other.ptr_); std::swap(length_, other.length_);`.
Returns `*this` and `other` afterwards. -/
def swap (self other : MemoryMapping) : MemoryMapping × MemoryMapping :=
  ({ ptr_ := other.ptr_, length_ := other.length_ }, { ptr_ := self.ptr_, length_ := self.length_ })

/-- The move constructor `MemoryMapping(MemoryMapping&& other) noexcept`: the
members take their default initialisers, then `swap(other)`. -/
def moveCtor (other : MemoryMapping) : MemoryMapping × MemoryMapping :=
  swap {} other

/-- The destructor `~MemoryMapping()`: `if (ptr_) ::munmap(ptr_, length_);`. -/
def dtor (k : Kernel) (self : MemoryMapping) (w : World) : Except system_error Unit × World :=
  if self.ptr_ ≠ nullptr then
    (.ok (), (syscall k (.sys_munmap self.ptr_ self.length_) w).2)
  else
    (.ok (), w)

/-- The move assignment `operator=(MemoryMapping&& other) noexcept`: `swap(other)`. -/
def moveAssign (self other : MemoryMapping) : MemoryMapping × MemoryMapping :=
  swap self other

/-- The block `{ MemoryMapping m(length, prot, flags, fd, offset); }`: when the
constructor throws no object exists and no destructor runs; otherwise the
destructor runs at the end of the block. -/
def scope (k : Kernel) (length : Nat) (prot flags fd offset : Int) (w : World) :
    Except system_error Unit × World :=
  match ctor k length prot flags fd offset w with
  | (.error e, w1) => (.error e, w1)
  | (.ok m, w1) => dtor k m w1

end MemoryMapping

end posix

/-! ## `systematic::pthread::setName` -/

namespace pthread

/-- The function `setName(pthread_t handle, std::string const& name)`: a non-zero
result of `::pthread_setname_np` throws
`std::system_error {errno, std::system_category(), "pthread_setname_np() failed"}`. -/
def setName (k : Kernel) (handle : Nat) (name : String) (w : World) :
    Except system_error Unit × World :=
  let r := syscall k (.sys_pthread_setname_np handle name) w
  if r.1 ≠ 0 then
    (.error { code := r.2.errno, what_arg := "pthread_setname_np() failed" }, r.2)
  else
    (.ok (), r.2)

end pthread

/-! ## `cyboola_core::MemoryMapping` (legacy) -/

namespace cyboola_core

/-- The legacy class `MemoryMapping`: members `void * ptr_` and `size_t length_`,
neither with a default initialiser. -/
structure MemoryMapping where
  ptr_ : Ptr
  length_ : Nat
  deriving DecidableEq, Repr

namespace MemoryMapping

/-- The legacy constructor `MemoryMapping(size_t length, int prot, int flags, int fd, int offset)`.
Its initialiser list initialises `ptr_` only, so `length_` keeps whatever value
its storage holds; that value is the parameter `indeterminate`. -/
def ctor (k : Kernel) (indeterminate : Nat) (length : Nat) (prot flags fd offset : Int)
    (w : World) : Except system_error MemoryMapping × World :=
  let r := syscall k (.sys_mmap nullptr length prot flags fd offset) w
  if r.1 = MAP_FAILED then
    (.error { code := r.2.errno, what_arg := "mmap() failed" }, r.2)
  else
    (.ok { ptr_ := r.1, length_ := indeterminate }, r.2)

/-- The legacy destructor `~MemoryMapping()`: `munmap(ptr_, length_);`. -/
def dtor (k : Kernel) (self : MemoryMapping) (w : World) : Except system_error Unit × World :=
  (.ok (), (syscall k (.sys_munmap self.ptr_ self.length_) w).2)

end MemoryMapping

end cyboola_core

/-! ## Reading the log -/

/-- The effect of one event on the table of open descriptors: a successful
`open` adds the descriptor it returned, `close` removes its argument. -/
def applyEvent (live : List Int) (e : Event) : List Int :=
  match e.call with
  | .sys_open _ _ => if 0 ≤ e.ret then e.ret :: live else live
  | .sys_close fd => live.filter (fun d => d ≠ fd)
  | _ => live

/-- The descriptors that are live after a log: opened and not yet closed. -/
def liveFds (log : List Event) : List Int :=
  log.foldl applyEvent []

/-- The number of `close` calls on descriptor `d` in a log. -/
def closeCount (d : Int) (log : List Event) : Nat :=
  log.countP (fun e => e.call = .sys_close d)

/-- The lengths with which address `p` was passed to `munmap` in a log, oldest first. -/
def unmapLengths (p : Ptr) (log : List Event) : List Nat :=
  log.filterMap (fun e =>
    match e.call with
    | .sys_munmap a len => if a = p then some len else none
    | _ => none)

/-- The release calls (`close`, `munmap`) of a log, oldest first. -/
def releaseCalls (log : List Event) : List Syscall :=
  (log.map Event.call).filter (fun c =>
    match c with
    | .sys_close _ => true
    | .sys_munmap _ _ => true
    | _ => false)

/-! ## Programs over several `FileDescriptor` instances -/

open posix

/-- The state of a program that manipulates `FileDescriptor` objects: its live
objects (slot `i` holds the `i`-th object constructed, `none` once it is
destroyed), the number of objects constructed so far, and the world. -/
structure Sys where
  insts : Nat → Option FileDescriptor
  next : Nat
  world : World

/-- The program state before anything ran. -/
def Sys.initial : Sys :=
  { insts := fun _ => none, next := 0, world := World.initial }

/-- The statements of such a program. -/
inductive Op where
  | fromPath (file_name : String) (flags : Int)
  | rawOpen (file_name : String) (flags : Int)
  | fromDescriptor (descriptor : Int)
  | fromInstance (i : Nat)
  | moveCtor (i : Nat)
  | moveAssign (i j : Nat)
  | dtor (i : Nat)
  deriving DecidableEq, Repr

/-- Bind a newly constructed object to the next slot. -/
def Sys.alloc (s : Sys) (a : FileDescriptor) (w : World) : Sys :=
  { insts := Function.update s.insts s.next (some a), next := s.next + 1, world := w }

/-- Execute one statement; `none` when it names an object that is not live.
* `fromPath f fl`: `FileDescriptor x(f, fl);` (no object when the constructor throws);
* `rawOpen f fl`: the caller calls `::open(f, fl)` itself;
* `fromDescriptor d`: `FileDescriptor x(d);`
* `fromInstance i`: `FileDescriptor x(int(o_i));`
* `moveCtor i`: `FileDescriptor x(std::move(o_i));`
* `moveAssign i j`: `o_i = std::move(o_j);` (for `i = j` both names denote one
  object, `std::swap` of a member with itself changes nothing, and the two
  updates below write back the value the object already has);
* `dtor i`: the lifetime of `o_i` ends. -/
def step (k : Kernel) (s : Sys) : Op → Option Sys
  | .fromPath f fl =>
      match FileDescriptor.fromPath k f fl s.world with
      | (.ok a, w) => some (s.alloc a w)
      | (.error _, w) => some { s with world := w }
  | .rawOpen f fl => some { s with world := (syscall k (.sys_open f fl) s.world).2 }
  | .fromDescriptor d => some (s.alloc (FileDescriptor.fromDescriptor d) s.world)
  | .fromInstance i =>
      match s.insts i with
      | some a => some (s.alloc (FileDescriptor.fromDescriptor a.toInt) s.world)
      | none => none
  | .moveCtor i =>
      match s.insts i with
      | some a =>
          some ({ s with insts := Function.update s.insts i (some a.moveCtor.2) }.alloc
            a.moveCtor.1 s.world)
      | none => none
  | .moveAssign i j =>
      match s.insts i, s.insts j with
      | some a, some b =>
          some { s with insts := Function.update (Function.update s.insts j
            (some (a.moveAssign b).2)) i (some (a.moveAssign b).1) }
      | _, _ => none
  | .dtor i =>
      match s.insts i with
      | some a => some { s with insts := Function.update s.insts i none,
                                world := (a.dtor k s.world).2 }
      | none => none

/-- Execute a list of statements in order. -/
def run (k : Kernel) : Sys → List Op → Option Sys
  | s, [] => some s
  | s, op :: ops =>
      match step k s op with
      | some s1 => run k s1 ops
      | none => none

/-- At most one live instance refers to any given live descriptor. -/
def AtMostOneOwner (s : Sys) : Prop :=
  ∀ i j a b, s.insts i = some a → s.insts j = some b →
    a.descriptor_ = b.descriptor_ → a.descriptor_ ∈ liveFds s.world.log → i = j

/-- The descriptor `d` may be handed to `FileDescriptor(int)` without creating
a second owner: it is negative (no descriptor at all), or it is open and no
live instance holds it. -/
def Sys.adoptable (s : Sys) (d : Int) : Prop :=
  d < 0 ∨ (d ∈ liveFds s.world.log ∧ ∀ i < s.next, s.insts i ≠ some (FileDescriptor.fromDescriptor d))

instance (s : Sys) (d : Int) : Decidable (s.adoptable d) := by
  unfold Sys.adoptable; infer_instance

/-- The statement adopts only descriptors that are adoptable in `s`. -/
def Op.owned (s : Sys) : Op → Prop
  | .fromDescriptor d => s.adoptable d
  | .fromInstance i =>
      match s.insts i with
      | some a => s.adoptable a.toInt
      | none => True
  | _ => True

instance (s : Sys) (op : Op) : Decidable (op.owned s) := by
  cases op <;> simp only [Op.owned] <;> try infer_instance
  split <;> infer_instance

/-- Every adoption along the execution of the statements adopts an adoptable descriptor. -/
def Disciplined (k : Kernel) : Sys → List Op → Prop
  | _, [] => True
  | s, op :: ops =>
      op.owned s ∧
        match step k s op with
        | some s1 => Disciplined k s1 ops
        | none => True

instance instDecidableDisciplined (k : Kernel) :
    ∀ (s : Sys) (ops : List Op), Decidable (Disciplined k s ops)
  | _, [] => isTrue trivial
  | s, op :: ops =>
      match h : step k s op with
      | some s1 =>
          have := instDecidableDisciplined k s1 ops
          decidable_of_iff (op.owned s ∧ Disciplined k s1 ops) (by simp [Disciplined, h])
      | none => decidable_of_iff (op.owned s) (by simp [Disciplined, h])

/-- The invariant that exclusive ownership rests on: slots at or above `next`
are empty, every non-negative descriptor held by an instance is live, and no
two instances hold the same non-negative descriptor. -/
def Sys.Inv (s : Sys) : Prop :=
  (∀ i, s.next ≤ i → s.insts i = none) ∧
  (∀ i a, s.insts i = some a → 0 ≤ a.descriptor_ → a.descriptor_ ∈ liveFds s.world.log) ∧
  (∀ i j a b, s.insts i = some a → s.insts j = some b →
    a.descriptor_ = b.descriptor_ → 0 ≤ a.descriptor_ → i = j)

/-- A kernel whose `open` never returns a descriptor that is still open. -/
def Kernel.FreshOpen (k : Kernel) : Prop :=
  ∀ w path flags, 0 ≤ (k.respond w (.sys_open path flags)).1 →
    (k.respond w (.sys_open path flags)).1 ∉ liveFds w.log

/-! ## A concrete operating system -/

/-- A small POSIX-like kernel.  `open` fails with `ENOENT` (2) on the empty path
and otherwise returns a descriptor above every live one; `mmap` fails with
`EINVAL` (22) on length zero and otherwise returns a page-aligned address;
`pthread_setname_np` returns `ERANGE` (34) for a name longer than 15 bytes and
leaves `errno` alone, as POSIX thread functions do; `close` and `munmap` succeed. -/
def demoKernel : Kernel where
  respond w c :=
    match c with
    | .sys_open path _ =>
        if path = "" then (-1, 2) else ((liveFds w.log).foldr max 2 + 1, w.errno)
    | .sys_close _ => (0, w.errno)
    | .sys_mmap _ length _ _ _ _ =>
        if length = 0 then (MAP_FAILED, 22) else (4096 * ((w.log.length : Int) + 1), w.errno)
    | .sys_munmap _ _ => (0, w.errno)
    | .sys_pthread_setname_np _ name =>
        if name.length > 15 then (34, w.errno) else (0, w.errno)

/-- A program that opens a file itself and adopts the descriptor, opens a
second file through the wrapper, moves, move-assigns, adopts the (negative)
descriptor of a moved-from object and destroys one object. -/
def demoProgram : List Op :=
  [.rawOpen "a" 0, .fromDescriptor 3, .fromPath "b" 0, .moveCtor 0, .moveAssign 1 2,
   .fromInstance 0, .dtor 1]

/-- A program that opens a file through the wrapper and constructs a second
object from the integer the first one converts to. -/
def aliasingProgram : List Op :=
  [.fromPath "data.bin" 0, .fromInstance 0]

/-- A program that adopts descriptor 3 while it is not open and then opens a
file through the wrapper. -/
def danglingProgram : List Op :=
  [.fromDescriptor 3, .fromPath "data.bin" 0]

/-! ## Log lemmas -/

theorem closeCount_append (d : Int) (l1 l2 : List Event) :
    closeCount d (l1 ++ l2) = closeCount d l1 + closeCount d l2 := by
  simp [closeCount, List.countP_append]

theorem unmapLengths_append (p : Ptr) (l1 l2 : List Event) :
    unmapLengths p (l1 ++ l2) = unmapLengths p l1 ++ unmapLengths p l2 := by
  simp [unmapLengths, List.filterMap_append]

theorem releaseCalls_append (l1 l2 : List Event) :
    releaseCalls (l1 ++ l2) = releaseCalls l1 ++ releaseCalls l2 := by
  simp [releaseCalls, List.filter_append]

theorem liveFds_append_one (log : List Event) (e : Event) :
    liveFds (log ++ [e]) = applyEvent (liveFds log) e := by
  simp [liveFds, List.foldl_append]

theorem fd_dtor_world (k : Kernel) (a : FileDescriptor) (w : World) :
    (a.dtor k w).2 =
      if 0 ≤ a.descriptor_ then (syscall k (.sys_close a.descriptor_) w).2 else w := by
  unfold FileDescriptor.dtor
  split <;> rfl

theorem mm_dtor_world (k : Kernel) (m : MemoryMapping) (w : World) :
    (m.dtor k w).2 =
      if m.ptr_ ≠ nullptr then (syscall k (.sys_munmap m.ptr_ m.length_) w).2 else w := by
  unfold MemoryMapping.dtor
  split <;> rfl

/-! ## `FileDescriptor`: construction and destruction -/

/-- C1: constructing a `FileDescriptor` from a path throws exactly when `open`
returns a negative value, the exception then carries the value of `errno` left
by that call, and otherwise `operator int` returns the value `open` returned,
which is non-negative.  The constructor issues that one `open` call. -/
theorem C1_fromPath_fails_iff_open_negative (k : Kernel) (file_name : String) (flags : Int)
    (w : World) :
    ((∃ e, (FileDescriptor.fromPath k file_name flags w).1 = .error e) ↔
        (k.respond w (.sys_open file_name flags)).1 < 0) ∧
    (∀ e, (FileDescriptor.fromPath k file_name flags w).1 = .error e →
        e.code = (k.respond w (.sys_open file_name flags)).2) ∧
    (∀ a, (FileDescriptor.fromPath k file_name flags w).1 = .ok a →
        a.toInt = (k.respond w (.sys_open file_name flags)).1 ∧ 0 ≤ a.toInt) ∧
    ((∃ a, (FileDescriptor.fromPath k file_name flags w).1 = .ok a) ↔
        0 ≤ (k.respond w (.sys_open file_name flags)).1) ∧
    (FileDescriptor.fromPath k file_name flags w).2.log =
      w.log ++ [⟨.sys_open file_name flags, (k.respond w (.sys_open file_name flags)).1⟩] := by
  unfold FileDescriptor.fromPath
  by_cases h : (k.respond w (.sys_open file_name flags)).1 < 0
  · simp [syscall, h]
  · have h0 : 0 ≤ (k.respond w (.sys_open file_name flags)).1 := not_lt.mp h
    simp [syscall, h, h0, FileDescriptor.toInt]

/-- C2: the destructor of a `FileDescriptor` never throws, whatever `close`
returns; it issues exactly one system call, `close` on the stored descriptor,
when the stored descriptor is non-negative, and leaves the world untouched (no
system call at all) otherwise, in particular in the sentinel state `-1`. -/
theorem C2_dtor_closes_iff_nonnegative (k : Kernel) (self : FileDescriptor) (w : World) :
    (self.dtor k w).1 = .ok () ∧
    ((self.dtor k w).2.log ≠ w.log ↔ 0 ≤ self.descriptor_) ∧
    (0 ≤ self.descriptor_ →
      (self.dtor k w).2.log =
        w.log ++ [⟨.sys_close self.descriptor_, (k.respond w (.sys_close self.descriptor_)).1⟩]) ∧
    (self.descriptor_ < 0 → (self.dtor k w).2 = w) ∧
    FileDescriptor.dtor k { descriptor_ := -1 } w = (.ok (), w) := by
  refine ⟨?_, ?_, ?_, ?_, ?_⟩
  · unfold FileDescriptor.dtor
    split <;> rfl
  · rw [fd_dtor_world]
    by_cases h : 0 ≤ self.descriptor_ <;> simp [h, syscall]
  · intro h
    rw [fd_dtor_world]
    simp [h, syscall]
  · intro h
    rw [fd_dtor_world]
    simp [not_le.mpr h]
  · simp [FileDescriptor.dtor]

/-! ## `MemoryMapping`: construction and destruction -/

/-- C3: constructing a `MemoryMapping` throws exactly when `mmap` returns
`MAP_FAILED`; in the block that declares the object a failed construction
propagates the exception and the only system call issued is that `mmap` (no
`munmap` follows); a successful construction yields exactly the pair of the
address `mmap` returned and the requested length. -/
theorem C3_ctor_fails_iff_map_failed (k : Kernel) (length : Nat) (prot flags fd offset : Int)
    (w : World) :
    ((∃ e, (MemoryMapping.ctor k length prot flags fd offset w).1 = .error e) ↔
        (k.respond w (.sys_mmap nullptr length prot flags fd offset)).1 = MAP_FAILED) ∧
    ((k.respond w (.sys_mmap nullptr length prot flags fd offset)).1 = MAP_FAILED →
      (∃ e, (MemoryMapping.scope k length prot flags fd offset w).1 = .error e) ∧
      (MemoryMapping.scope k length prot flags fd offset w).2.log =
        w.log ++ [⟨.sys_mmap nullptr length prot flags fd offset, MAP_FAILED⟩] ∧
      releaseCalls (MemoryMapping.scope k length prot flags fd offset w).2.log =
        releaseCalls w.log) ∧
    ((k.respond w (.sys_mmap nullptr length prot flags fd offset)).1 ≠ MAP_FAILED →
      (MemoryMapping.ctor k length prot flags fd offset w).1 =
        .ok { ptr_ := (k.respond w (.sys_mmap nullptr length prot flags fd offset)).1,
              length_ := length }) := by
  by_cases h : (k.respond w (.sys_mmap nullptr length prot flags fd offset)).1 = MAP_FAILED
  · simp [MemoryMapping.scope, MemoryMapping.ctor, syscall, h, releaseCalls]
  · simp [MemoryMapping.scope, MemoryMapping.ctor, syscall, h, releaseCalls]

/-- C4: the destructor of a `MemoryMapping` issues a system call exactly when
the stored address is non-null, and then it is the single call
`munmap(ptr_, length_)`; a null address is never passed to `munmap`; and for an
object the constructor produced, `length_` is the length given at construction. -/
theorem C4_dtor_unmaps_iff_nonnull (k : Kernel) (self : MemoryMapping) (w : World) :
    (self.dtor k w).1 = .ok () ∧
    ((self.dtor k w).2.log ≠ w.log ↔ self.ptr_ ≠ nullptr) ∧
    (self.ptr_ ≠ nullptr →
      (self.dtor k w).2.log =
        w.log ++ [⟨.sys_munmap self.ptr_ self.length_,
                   (k.respond w (.sys_munmap self.ptr_ self.length_)).1⟩]) ∧
    (self.ptr_ = nullptr → (self.dtor k w).2 = w) ∧
    unmapLengths nullptr (self.dtor k w).2.log = unmapLengths nullptr w.log ∧
    (∀ length prot flags fd offset w0 m,
      (MemoryMapping.ctor k length prot flags fd offset w0).1 = .ok m →
        m.length_ = length ∧
        (m.ptr_ ≠ nullptr →
          (m.dtor k w).2.log =
            w.log ++ [⟨.sys_munmap m.ptr_ length,
                       (k.respond w (.sys_munmap m.ptr_ length)).1⟩])) := by
  refine ⟨?_, ?_, ?_, ?_, ?_, ?_⟩
  · unfold MemoryMapping.dtor
    split <;> rfl
  · rw [mm_dtor_world]
    by_cases h : self.ptr_ = nullptr <;> simp [h, syscall]
  · intro h
    rw [mm_dtor_world]
    simp [h, syscall]
  · intro h
    rw [mm_dtor_world]
    simp [h]
  · rw [mm_dtor_world]
    by_cases h : self.ptr_ = nullptr
    · simp [h]
    · simp [h, syscall, unmapLengths_append, unmapLengths]
  · intro length prot flags fd offset w0 m hm
    unfold MemoryMapping.ctor at hm
    by_cases hf : (syscall k (.sys_mmap nullptr length prot flags fd offset) w0).1 = MAP_FAILED
    · simp [hf] at hm
    · simp only [hf, if_false] at hm
      cases hm
      refine ⟨rfl, ?_⟩
      intro hp
      have hp2 : (k.respond w0 (.sys_mmap nullptr length prot flags fd offset)).1 ≠ nullptr := hp
      rw [mm_dtor_world]
      simp [hp2, syscall]

/-! ## Moving -/

/-- C5: move construction gives the new object the descriptor (respectively
the address and length) of the source and leaves the source with descriptor
`-1` (respectively null address and zero length); destroying the moved-from
source leaves the world untouched; destroying both objects, in either order,
is exactly destroying the original once, so a held descriptor is closed once
and a held region unmapped once with its own length. -/
theorem C5_moveCtor_transfers_ownership (k : Kernel) (a : FileDescriptor) (m : MemoryMapping)
    (w : World) :
    (a.moveCtor.1.descriptor_ = a.descriptor_ ∧ a.moveCtor.2.descriptor_ = -1 ∧
      a.moveCtor.2.dtor k w = (.ok (), w) ∧
      a.moveCtor.1.dtor k (a.moveCtor.2.dtor k w).2 = a.dtor k w ∧
      a.moveCtor.2.dtor k (a.moveCtor.1.dtor k w).2 = a.dtor k w ∧
      ∀ d, closeCount d (a.moveCtor.1.dtor k (a.moveCtor.2.dtor k w).2).2.log =
        closeCount d w.log + if 0 ≤ d ∧ d = a.descriptor_ then 1 else 0) ∧
    (m.moveCtor.1 = m ∧ m.moveCtor.2 = { ptr_ := nullptr, length_ := 0 } ∧
      m.moveCtor.2.dtor k w = (.ok (), w) ∧
      m.moveCtor.1.dtor k (m.moveCtor.2.dtor k w).2 = m.dtor k w ∧
      m.moveCtor.2.dtor k (m.moveCtor.1.dtor k w).2 = m.dtor k w ∧
      ∀ p, unmapLengths p (m.moveCtor.1.dtor k (m.moveCtor.2.dtor k w).2).2.log =
        unmapLengths p w.log ++ if p ≠ nullptr ∧ p = m.ptr_ then [m.length_] else []) := by
  have hfd : a.moveCtor.2.dtor k w = (.ok (), w) := by
    simp [FileDescriptor.moveCtor, FileDescriptor.dtor]
  have hmm : m.moveCtor.2.dtor k w = (.ok (), w) := by
    simp [MemoryMapping.moveCtor, MemoryMapping.swap, MemoryMapping.dtor]
  refine ⟨⟨rfl, rfl, hfd, ?_, ?_, ?_⟩, ⟨rfl, rfl, hmm, ?_, ?_, ?_⟩⟩
  · rw [hfd]; rfl
  · simp only [FileDescriptor.moveCtor, FileDescriptor.dtor]
    by_cases h : 0 ≤ a.descriptor_ <;> simp [h]
  · intro d
    rw [hfd]
    show closeCount d (a.dtor k w).2.log = _
    rw [fd_dtor_world]
    by_cases h : 0 ≤ a.descriptor_
    · by_cases hd : d = a.descriptor_
      · subst hd
        simp [h, syscall, closeCount_append, closeCount]
      · have hd2 : ¬ a.descriptor_ = d := fun e => hd e.symm
        simp [h, hd, hd2, syscall, closeCount_append, closeCount]
    · have hd : ¬ (0 ≤ d ∧ d = a.descriptor_) := fun e => h (e.2 ▸ e.1)
      simp [h, hd]
  · rw [hmm]; rfl
  · simp only [MemoryMapping.moveCtor, MemoryMapping.swap, MemoryMapping.dtor]
    by_cases h : m.ptr_ = nullptr <;> simp [h]
  · intro p
    rw [hmm]
    show unmapLengths p (m.dtor k w).2.log = _
    rw [mm_dtor_world]
    by_cases h : m.ptr_ = nullptr
    · have hp : ¬ (p ≠ nullptr ∧ p = m.ptr_) := fun e => e.1 (e.2.trans h)
      simp [h, hp]
    · by_cases hp : p = m.ptr_
      · subst hp
        simp [h, syscall, unmapLengths_append, unmapLengths]
      · have hp2 : ¬ m.ptr_ = p := fun e => hp e.symm
        simp [h, hp, hp2, syscall, unmapLengths_append, unmapLengths]

/-- C6: for two `FileDescriptor` objects holding different descriptors and two
`MemoryMapping` objects holding different addresses, move assignment exchanges
what the two objects hold (address and length together); and once both objects
are destroyed, in either order, every non-negative descriptor either of them
held has been closed exactly once and nothing else was closed, and every
non-null address either of them held has been unmapped exactly once, with its
own length, and nothing else was unmapped. -/
theorem C6_moveAssign_exchanges_ownership (k : Kernel) (a b : FileDescriptor)
    (m n : MemoryMapping) (w : World)
    (hfd : a.descriptor_ ≠ b.descriptor_) (hmm : m.ptr_ ≠ n.ptr_) :
    a.moveAssign b = (b, a) ∧ m.moveAssign n = (n, m) ∧
    (∀ d, closeCount d ((a.moveAssign b).1.dtor k ((a.moveAssign b).2.dtor k w).2).2.log =
      closeCount d w.log + if 0 ≤ d ∧ (d = a.descriptor_ ∨ d = b.descriptor_) then 1 else 0) ∧
    (∀ d, closeCount d ((a.moveAssign b).2.dtor k ((a.moveAssign b).1.dtor k w).2).2.log =
      closeCount d w.log + if 0 ≤ d ∧ (d = a.descriptor_ ∨ d = b.descriptor_) then 1 else 0) ∧
    (∀ p, unmapLengths p ((m.moveAssign n).1.dtor k ((m.moveAssign n).2.dtor k w).2).2.log =
      unmapLengths p w.log ++
        if p ≠ nullptr ∧ p = m.ptr_ then [m.length_]
        else if p ≠ nullptr ∧ p = n.ptr_ then [n.length_] else []) ∧
    (∀ p, unmapLengths p ((m.moveAssign n).2.dtor k ((m.moveAssign n).1.dtor k w).2).2.log =
      unmapLengths p w.log ++
        if p ≠ nullptr ∧ p = m.ptr_ then [m.length_]
        else if p ≠ nullptr ∧ p = n.ptr_ then [n.length_] else []) := by
  have hcount : ∀ (x : FileDescriptor) (v : World) (d : Int),
      closeCount d (x.dtor k v).2.log =
        closeCount d v.log + if 0 ≤ d ∧ d = x.descriptor_ then 1 else 0 := by
    intro x v d
    rw [fd_dtor_world]
    by_cases h : 0 ≤ x.descriptor_
    · by_cases hd : d = x.descriptor_
      · subst hd
        simp [h, syscall, closeCount_append, closeCount]
      · have hd2 : ¬ x.descriptor_ = d := fun e => hd e.symm
        simp [h, hd, hd2, syscall, closeCount_append, closeCount]
    · have hd : ¬ (0 ≤ d ∧ d = x.descriptor_) := fun e => h (e.2 ▸ e.1)
      simp [h, hd]
  have hunmap : ∀ (x : MemoryMapping) (v : World) (p : Ptr),
      unmapLengths p (x.dtor k v).2.log =
        unmapLengths p v.log ++ if p ≠ nullptr ∧ p = x.ptr_ then [x.length_] else [] := by
    intro x v p
    rw [mm_dtor_world]
    by_cases h : x.ptr_ = nullptr
    · have hp : ¬ (p ≠ nullptr ∧ p = x.ptr_) := fun e => e.1 (e.2.trans h)
      simp [h, hp]
    · by_cases hp : p = x.ptr_
      · subst hp
        simp [h, syscall, unmapLengths_append, unmapLengths]
      · have hp2 : ¬ x.ptr_ = p := fun e => hp e.symm
        simp [h, hp, hp2, syscall, unmapLengths_append, unmapLengths]
  have hab : a.moveAssign b = (b, a) := rfl
  have hmn : m.moveAssign n = (n, m) := rfl
  refine ⟨hab, hmn, ?_, ?_, ?_, ?_⟩
  · intro d
    rw [hab, hcount, hcount]
    by_cases h0 : 0 ≤ d
    · by_cases ha : d = a.descriptor_
      · have hb : ¬ d = b.descriptor_ := fun e => hfd (ha.symm.trans e)
        simp [h0, ha, hb, hfd]
      · by_cases hb : d = b.descriptor_
        · have hba : ¬ b.descriptor_ = a.descriptor_ := fun e => hfd e.symm
          have h1 : 0 ≤ b.descriptor_ := hb ▸ h0
          subst hb
          simp [h1, hba]
        · simp [h0, ha, hb]
    · simp [h0]
  · intro d
    rw [hab, hcount, hcount]
    by_cases h0 : 0 ≤ d
    · by_cases ha : d = a.descriptor_
      · have hb : ¬ d = b.descriptor_ := fun e => hfd (ha.symm.trans e)
        simp [h0, ha, hb, hfd]
      · by_cases hb : d = b.descriptor_
        · have hba : ¬ b.descriptor_ = a.descriptor_ := fun e => hfd e.symm
          have h1 : 0 ≤ b.descriptor_ := hb ▸ h0
          subst hb
          simp [h1, hba]
        · simp [h0, ha, hb]
    · simp [h0]
  · intro p
    rw [hmn, hunmap, hunmap]
    by_cases h0 : p = nullptr
    · simp [h0]
    · by_cases ha : p = m.ptr_
      · have hb : ¬ p = n.ptr_ := fun e => hmm (ha.symm.trans e)
        simp [h0, ha, hb, hmm]
      · by_cases hb : p = n.ptr_
        · have hba : ¬ n.ptr_ = m.ptr_ := fun e => hmm e.symm
          have h1 : ¬ n.ptr_ = nullptr := hb ▸ h0
          subst hb
          simp [h1, hba]
        · simp [h0, ha, hb]
  · intro p
    rw [hmn, hunmap, hunmap]
    by_cases h0 : p = nullptr
    · simp [h0]
    · by_cases ha : p = m.ptr_
      · have hb : ¬ p = n.ptr_ := fun e => hmm (ha.symm.trans e)
        simp [h0, ha, hb, hmm]
      · by_cases hb : p = n.ptr_
        · have hba : ¬ n.ptr_ = m.ptr_ := fun e => hmm e.symm
          have h1 : ¬ n.ptr_ = nullptr := hb ▸ h0
          subst hb
          simp [h1, hba]
        · simp [h0, ha, hb]

/-! ## Exclusive ownership of descriptors -/

theorem mem_liveFds_open (log : List Event) (f : String) (fl r x : Int) :
    x ∈ liveFds (log ++ [⟨.sys_open f fl, r⟩]) ↔ (0 ≤ r ∧ x = r) ∨ x ∈ liveFds log := by
  rw [liveFds_append_one]
  simp only [applyEvent]
  split_ifs with h <;> simp [h]

theorem mem_liveFds_close (log : List Event) (fd r x : Int) :
    x ∈ liveFds (log ++ [⟨.sys_close fd, r⟩]) ↔ x ∈ liveFds log ∧ x ≠ fd := by
  rw [liveFds_append_one]
  simp [applyEvent]

theorem foldl_applyEvent_nonneg (log : List Event) :
    ∀ live : List Int, (∀ d ∈ live, 0 ≤ d) → ∀ d ∈ log.foldl applyEvent live, 0 ≤ d := by
  induction log with
  | nil => intro live h d hd; exact h d hd
  | cons e rest ih =>
      intro live h d hd
      rw [List.foldl_cons] at hd
      refine ih (applyEvent live e) ?_ d hd
      intro x hx
      unfold applyEvent at hx
      split at hx
      · split_ifs at hx with h0
        · rcases List.mem_cons.mp hx with hx1 | hx1
          · exact hx1 ▸ h0
          · exact h x hx1
        · exact h x hx
      · exact h x (List.mem_filter.mp hx).1
      · exact h x hx

theorem liveFds_nonneg (log : List Event) (d : Int) (h : d ∈ liveFds log) : 0 ≤ d :=
  foldl_applyEvent_nonneg log [] (by simp) d h

theorem Sys.Inv.lt_next {s : Sys} (hs : s.Inv) {i : Nat} {a : FileDescriptor}
    (h : s.insts i = some a) : i < s.next := by
  by_contra hc
  have := hs.1 i (not_lt.mp hc)
  rw [h] at this
  cases this

theorem Sys.initial_inv : Sys.initial.Inv := by
  refine ⟨fun _ _ => rfl, ?_, ?_⟩
  · intro i a h; cases h
  · intro i j a b h; cases h

theorem Sys.Inv.atMostOneOwner {s : Sys} (hs : s.Inv) : AtMostOneOwner s := by
  intro i j a b ha hb hab hlive
  exact hs.2.2 i j a b ha hb hab (liveFds_nonneg _ _ hlive)

/-- Changing only the world keeps the invariant when no live descriptor is lost. -/
theorem Sys.Inv.world {s : Sys} (hs : s.Inv) (w : World)
    (hlive : ∀ x, x ∈ liveFds s.world.log → x ∈ liveFds w.log) :
    Sys.Inv { s with world := w } := by
  refine ⟨hs.1, ?_, hs.2.2⟩
  intro i a ha h0
  exact hlive _ (hs.2.1 i a ha h0)

/-- Overwriting a slot below `next` with an object that holds no descriptor, or
emptying it, keeps the invariant. -/
theorem Sys.Inv.clear {s : Sys} (hs : s.Inv) (i : Nat) (hi : i < s.next)
    (v : Option FileDescriptor) (hv : ∀ a, v = some a → a.descriptor_ < 0) :
    Sys.Inv { s with insts := Function.update s.insts i v } := by
  refine ⟨?_, ?_, ?_⟩
  · intro x hx
    have hx1 : s.next ≤ x := hx
    have hne : x ≠ i := by omega
    simp only [Function.update_apply, hne, if_false]
    exact hs.1 x hx1
  · intro x a ha h0
    simp only [Function.update_apply] at ha
    split_ifs at ha with hx
    · exact absurd h0 (not_le.mpr (hv a ha))
    · exact hs.2.1 x a ha h0
  · intro x y a b ha hb hab h0
    simp only [Function.update_apply] at ha hb
    split_ifs at ha with hx
    · exact absurd h0 (not_le.mpr (hv a ha))
    · split_ifs at hb with hy
      · exact absurd (hab ▸ h0) (not_le.mpr (hv b hb))
      · exact hs.2.2 x y a b ha hb hab h0

/-- Binding a new object keeps the invariant when no live descriptor is lost
and the descriptor of the new object, if non-negative, is live and held by no
other instance. -/
theorem Sys.Inv.alloc {s : Sys} (hs : s.Inv) (a : FileDescriptor) (w : World)
    (hlive : ∀ x, x ∈ liveFds s.world.log → x ∈ liveFds w.log)
    (hnew : 0 ≤ a.descriptor_ → a.descriptor_ ∈ liveFds w.log ∧
      ∀ i b, s.insts i = some b → b.descriptor_ ≠ a.descriptor_) :
    (s.alloc a w).Inv := by
  refine ⟨?_, ?_, ?_⟩
  · intro x hx
    have hx1 : s.next + 1 ≤ x := hx
    have hne : x ≠ s.next := by omega
    simp only [Sys.alloc, Function.update_apply, hne, if_false]
    exact hs.1 x (by omega)
  · intro x b hb h0
    simp only [Sys.alloc, Function.update_apply] at hb
    split_ifs at hb with hx
    · cases hb
      exact (hnew h0).1
    · exact hlive _ (hs.2.1 x b hb h0)
  · intro x y b c hb hc hbc h0
    simp only [Sys.alloc, Function.update_apply] at hb hc
    split_ifs at hb with hx
    · split_ifs at hc with hy
      · rw [hx, hy]
      · cases hb
        exact absurd hbc.symm ((hnew h0).2 y c hc)
    · split_ifs at hc with hy
      · cases hc
        exact absurd hbc ((hnew (hbc ▸ h0)).2 x b hb)
      · exact hs.2.2 x y b c hb hc hbc h0

theorem open_keeps_live (k : Kernel) (f : String) (fl : Int) (w : World) (x : Int)
    (hx : x ∈ liveFds w.log) : x ∈ liveFds (syscall k (.sys_open f fl) w).2.log :=
  (mem_liveFds_open w.log f fl _ x).mpr (Or.inr hx)

/-- An adoptable descriptor that is non-negative is live and held by no instance. -/
theorem Sys.Inv.adoptable_spec {s : Sys} (hs : s.Inv) {d : Int} (hd : s.adoptable d)
    (h0 : 0 ≤ d) :
    d ∈ liveFds s.world.log ∧ ∀ i b, s.insts i = some b → b.descriptor_ ≠ d := by
  rcases hd with hneg | ⟨hlive, hfree⟩
  · exact absurd h0 (not_le.mpr hneg)
  · refine ⟨hlive, ?_⟩
    intro i b hb hbd
    apply hfree i (hs.lt_next hb)
    rw [hb, ← hbd]
    rfl

/-- Every statement that adopts only adoptable descriptors keeps the invariant,
on a kernel whose `open` returns fresh descriptors. -/
theorem step_inv (k : Kernel) (hk : k.FreshOpen) (s : Sys) (hs : s.Inv) (op : Op)
    (ho : op.owned s) (s1 : Sys) (h : step k s op = some s1) : s1.Inv := by
  cases op with
  | fromPath f fl =>
      simp only [step, FileDescriptor.fromPath] at h
      by_cases hr : (syscall k (.sys_open f fl) s.world).1 < 0
      · simp only [hr, if_true, Option.some.injEq] at h
        subst h
        exact hs.world _ (fun x hx => open_keeps_live k f fl s.world x hx)
      · simp only [hr, if_false, Option.some.injEq] at h
        subst h
        refine hs.alloc _ _ (fun x hx => open_keeps_live k f fl s.world x hx) ?_
        intro h0
        refine ⟨(mem_liveFds_open s.world.log f fl _ _).mpr (Or.inl ⟨h0, rfl⟩), ?_⟩
        intro i b hb heq
        have hb0 : 0 ≤ b.descriptor_ := by rw [heq]; exact h0
        have hlive := hs.2.1 i b hb hb0
        rw [heq] at hlive
        exact hk s.world f fl h0 hlive
  | rawOpen f fl =>
      simp only [step, Option.some.injEq] at h
      subst h
      exact hs.world _ (fun x hx => open_keeps_live k f fl s.world x hx)
  | fromDescriptor d =>
      simp only [step, Option.some.injEq] at h
      subst h
      exact hs.alloc _ _ (fun _ hx => hx) (fun h0 => hs.adoptable_spec ho h0)
  | fromInstance i =>
      simp only [step] at h
      cases hi : s.insts i with
      | none => simp [hi] at h
      | some a =>
          simp only [hi, Option.some.injEq] at h
          subst h
          simp only [Op.owned, hi] at ho
          exact hs.alloc _ _ (fun _ hx => hx) (fun h0 => hs.adoptable_spec ho h0)
  | moveCtor i =>
      simp only [step] at h
      cases hi : s.insts i with
      | none => simp [hi] at h
      | some a =>
          simp only [hi, Option.some.injEq] at h
          subst h
          have hc : Sys.Inv { s with insts := Function.update s.insts i (some a.moveCtor.2) } :=
            hs.clear i (hs.lt_next hi) _ (by
              intro b hb
              cases hb
              simp [FileDescriptor.moveCtor])
          refine hc.alloc _ _ (fun _ hx => hx) ?_
          intro h0
          have h0a : 0 ≤ a.descriptor_ := h0
          refine ⟨hs.2.1 i a hi h0a, ?_⟩
          intro j b hb hbd
          simp only [Function.update_apply] at hb
          split_ifs at hb with hj
          · cases hb
            simp only [FileDescriptor.moveCtor] at hbd
            rw [← hbd] at h0a
            omega
          · have hbd2 : b.descriptor_ = a.descriptor_ := hbd
            exact hj (hs.2.2 j i b a hb hi hbd2 (hbd2 ▸ h0a))
  | moveAssign i j =>
      simp only [step] at h
      cases hi : s.insts i with
      | none => simp [hi] at h
      | some a =>
        cases hj : s.insts j with
        | none => simp [hi, hj] at h
        | some b =>
          simp only [hi, hj, Option.some.injEq] at h
          subst h
          have hnext : ∀ x, s.next ≤ x → x ≠ i ∧ x ≠ j := by
            intro x hx
            have := hs.lt_next hi
            have := hs.lt_next hj
            constructor <;> omega
          have key : ∀ x c, Function.update (Function.update s.insts j
              (some (a.moveAssign b).2)) i (some (a.moveAssign b).1) x = some c →
              ∃ y, s.insts y = some c ∧ (x = i → y = j) ∧ (x = j → y = i) ∧
                (x ≠ i → x ≠ j → y = x) := by
            intro x c hc
            simp only [Function.update_apply, FileDescriptor.moveAssign] at hc
            split_ifs at hc with hxi hxj
            · cases hc
              exact ⟨j, hj, fun _ => rfl, fun e => by rw [← hxi, e], fun e => absurd hxi e⟩
            · cases hc
              exact ⟨i, hi, fun e => absurd e hxi, fun _ => rfl, fun _ e => absurd hxj e⟩
            · exact ⟨x, hc, fun e => absurd e hxi, fun e => absurd e hxj, fun _ _ => rfl⟩
          refine ⟨?_, ?_, ?_⟩
          · intro x hx
            have hx1 : s.next ≤ x := hx
            obtain ⟨h1, h2⟩ := hnext x hx1
            simp only [Function.update_apply, h1, h2, if_false]
            exact hs.1 x hx1
          · intro x c hc h0
            obtain ⟨y, hy, -⟩ := key x c hc
            exact hs.2.1 y c hy h0
          · intro x1 x2 c1 c2 hc1 hc2 hcc h0
            obtain ⟨y1, hy1, p1, q1, r1⟩ := key x1 c1 hc1
            obtain ⟨y2, hy2, p2, q2, r2⟩ := key x2 c2 hc2
            have hy : y1 = y2 := hs.2.2 y1 y2 c1 c2 hy1 hy2 hcc h0
            by_cases e1 : x1 = i
            · by_cases e2 : x2 = i
              · rw [e1, e2]
              · by_cases f2 : x2 = j
                · have := p1 e1
                  have := q2 f2
                  omega
                · have := p1 e1
                  have := r2 e2 f2
                  omega
            · by_cases f1 : x1 = j
              · by_cases e2 : x2 = i
                · have := q1 f1
                  have := p2 e2
                  omega
                · by_cases f2 : x2 = j
                  · rw [f1, f2]
                  · have := q1 f1
                    have := r2 e2 f2
                    omega
              · by_cases e2 : x2 = i
                · have := r1 e1 f1
                  have := p2 e2
                  omega
                · by_cases f2 : x2 = j
                  · have := r1 e1 f1
                    have := q2 f2
                    omega
                  · have := r1 e1 f1
                    have := r2 e2 f2
                    omega
  | dtor i =>
      simp only [step] at h
      cases hi : s.insts i with
      | none => simp [hi] at h
      | some a =>
          simp only [hi, Option.some.injEq] at h
          subst h
          have hlt := hs.lt_next hi
          by_cases h0 : 0 ≤ a.descriptor_
          · refine ⟨?_, ?_, ?_⟩
            · intro x hx
              have hx1 : s.next ≤ x := hx
              have hne : x ≠ i := by omega
              simp only [Function.update_apply, hne, if_false]
              exact hs.1 x hx1
            · intro x b hb hb0
              simp only [Function.update_apply] at hb
              split_ifs at hb with hx
              have hne : b.descriptor_ ≠ a.descriptor_ :=
                fun e => hx (hs.2.2 x i b a hb hi e hb0)
              show b.descriptor_ ∈ liveFds (a.dtor k s.world).2.log
              rw [fd_dtor_world]
              simp only [h0, if_true, syscall]
              exact (mem_liveFds_close _ _ _ _).mpr ⟨hs.2.1 x b hb hb0, hne⟩
            · intro x y b c hb hc hbc hb0
              simp only [Function.update_apply] at hb hc
              split_ifs at hb with hx
              split_ifs at hc with hy
              exact hs.2.2 x y b c hb hc hbc hb0
          · have hw : (a.dtor k s.world).2 = s.world := by
              rw [fd_dtor_world]
              simp [h0]
            rw [hw]
            exact hs.clear i hlt none (by intro b hb; cases hb)

theorem run_inv (k : Kernel) (hk : k.FreshOpen) (ops : List Op) :
    ∀ s : Sys, s.Inv → Disciplined k s ops → ∀ s1, run k s ops = some s1 → s1.Inv := by
  induction ops with
  | nil =>
      intro s hs _ s1 h
      simp only [run, Option.some.injEq] at h
      exact h ▸ hs
  | cons op rest ih =>
      intro s hs hd s1 h
      simp only [run] at h
      simp only [Disciplined] at hd
      cases hstep : step k s op with
      | none => simp [hstep] at h
      | some s2 =>
          simp only [hstep] at h hd
          exact ih s2 (step_inv k hk s hs op hd.1 s2 hstep) hd.2 s1 h

theorem foldr_max_ge (l : List Int) (b x : Int) (hx : x ∈ l) : x ≤ l.foldr max b := by
  induction l with
  | nil => cases hx
  | cons y rest ih =>
      rw [List.foldr_cons]
      rcases List.mem_cons.mp hx with h | h
      · rw [h]; exact le_max_left _ _
      · exact le_trans (ih h) (le_max_right _ _)

theorem demoKernel_freshOpen : demoKernel.FreshOpen := by
  intro w path flags h0 hmem
  simp only [demoKernel] at h0 hmem
  split_ifs at h0 hmem with hp
  · simp at h0
  · have := foldr_max_ge _ 2 _ hmem
    simp only at this
    omega

/-- C8 (as amended): on a kernel whose `open` never returns a descriptor that
is still open, in every state reached by constructing from a path, adopting a
descriptor that is negative or is open and held by no live instance, move
constructing, move assigning and destroying, at most one live instance refers
to any given live descriptor. -/
theorem C8_exclusive_ownership_of_disciplined_programs (k : Kernel) (ops : List Op) (s : Sys)
    (hk : k.FreshOpen) (hd : Disciplined k Sys.initial ops)
    (hr : run k Sys.initial ops = some s) : AtMostOneOwner s :=
  (run_inv k hk ops Sys.initial Sys.initial_inv hd s hr).atMostOneOwner

/-- C8, witness: `demoProgram` on `demoKernel` adopts only adoptable
descriptors, runs to a state with four objects constructed, of which one holds
the live descriptor 4, and that state has at most one owner per live descriptor. -/
theorem C8_exclusive_ownership_witness :
    demoKernel.FreshOpen ∧ Disciplined demoKernel Sys.initial demoProgram ∧
    ∃ s, run demoKernel Sys.initial demoProgram = some s ∧
      (List.range s.next).map s.insts = [some ⟨-1⟩, none, some ⟨4⟩, some ⟨-1⟩] ∧
      liveFds s.world.log = [4] ∧ AtMostOneOwner s := by
  have hsome : (run demoKernel Sys.initial demoProgram).isSome = true := by decide
  obtain ⟨s, hs⟩ := Option.isSome_iff_exists.mp hsome
  have e1 : (run demoKernel Sys.initial demoProgram).map
      (fun s => (List.range s.next).map s.insts) = some [some ⟨-1⟩, none, some ⟨4⟩, some ⟨-1⟩] := by
    decide
  have e2 : (run demoKernel Sys.initial demoProgram).map
      (fun s => liveFds s.world.log) = some [4] := by
    decide
  rw [hs] at e1 e2
  refine ⟨demoKernel_freshOpen, by decide, s, hs, ?_, ?_, ?_⟩
  · simpa using e1
  · simpa using e2
  · exact C8_exclusive_ownership_of_disciplined_programs demoKernel demoProgram s
      demoKernel_freshOpen (by decide) hs

/-- C8, counterexample: on `demoKernel`, whose `open` returns fresh descriptors,
`FileDescriptor a("data.bin", 0); FileDescriptor b(int(a));` reaches a state in
which the two live objects 0 and 1 both hold descriptor 3, which is live. -/
theorem C8_adopting_a_held_descriptor_breaks_exclusivity :
    demoKernel.FreshOpen ∧
    ∃ s, run demoKernel Sys.initial aliasingProgram = some s ∧
      s.insts 0 = some ⟨3⟩ ∧ s.insts 1 = some ⟨3⟩ ∧ 3 ∈ liveFds s.world.log ∧
      ¬ AtMostOneOwner s := by
  have hsome : (run demoKernel Sys.initial aliasingProgram).isSome = true := by decide
  obtain ⟨s, hs⟩ := Option.isSome_iff_exists.mp hsome
  have e0 : (run demoKernel Sys.initial aliasingProgram).map (fun s => s.insts 0) =
      some (some ⟨3⟩) := by decide
  have e1 : (run demoKernel Sys.initial aliasingProgram).map (fun s => s.insts 1) =
      some (some ⟨3⟩) := by decide
  have e2 : (run demoKernel Sys.initial aliasingProgram).map (fun s => liveFds s.world.log) =
      some [3] := by decide
  rw [hs] at e0 e1 e2
  have h0 : s.insts 0 = some ⟨3⟩ := by simpa using e0
  have h1 : s.insts 1 = some ⟨3⟩ := by simpa using e1
  have h2 : liveFds s.world.log = [3] := by simpa using e2
  have h3 : (3 : Int) ∈ liveFds s.world.log := by rw [h2]; simp
  refine ⟨demoKernel_freshOpen, s, hs, h0, h1, h3, ?_⟩
  intro h
  have := h 0 1 ⟨3⟩ ⟨3⟩ h0 h1 rfl h3
  omega

/-- Adopting a descriptor that is not open breaks exclusivity as well: on
`demoKernel`, `FileDescriptor a(3); FileDescriptor b("data.bin", 0);` reaches a
state in which objects 0 and 1 both hold descriptor 3, which `open` returned
to the second one. -/
theorem adopting_a_closed_descriptor_breaks_exclusivity :
    ∃ s, run demoKernel Sys.initial danglingProgram = some s ∧
      s.insts 0 = some ⟨3⟩ ∧ s.insts 1 = some ⟨3⟩ ∧ 3 ∈ liveFds s.world.log := by
  have hsome : (run demoKernel Sys.initial danglingProgram).isSome = true := by decide
  obtain ⟨s, hs⟩ := Option.isSome_iff_exists.mp hsome
  have e0 : (run demoKernel Sys.initial danglingProgram).map (fun s => s.insts 0) =
      some (some ⟨3⟩) := by decide
  have e1 : (run demoKernel Sys.initial danglingProgram).map (fun s => s.insts 1) =
      some (some ⟨3⟩) := by decide
  have e2 : (run demoKernel Sys.initial danglingProgram).map (fun s => liveFds s.world.log) =
      some [3] := by decide
  rw [hs] at e0 e1 e2
  have h2 : liveFds s.world.log = [3] := by simpa using e2
  exact ⟨s, hs, by simpa using e0, by simpa using e1, by rw [h2]; simp⟩

/-- C6, witness: objects holding descriptors 3 and 4 and mappings at 4096 (10
bytes) and 8192 (20 bytes) are exchanged by move assignment, and after both
destructors each descriptor was closed once and each region unmapped once with
its own length. -/
theorem C6_moveAssign_exchanges_ownership_witness :
    (3 : Int) ≠ 4 ∧ (4096 : Ptr) ≠ 8192 ∧
    FileDescriptor.moveAssign ⟨3⟩ ⟨4⟩ = (⟨4⟩, ⟨3⟩) ∧
    MemoryMapping.moveAssign ⟨4096, 10⟩ ⟨8192, 20⟩ = (⟨8192, 20⟩, ⟨4096, 10⟩) ∧
    closeCount 3 (FileDescriptor.dtor demoKernel (FileDescriptor.moveAssign ⟨3⟩ ⟨4⟩).1
      (FileDescriptor.dtor demoKernel (FileDescriptor.moveAssign ⟨3⟩ ⟨4⟩).2
        World.initial).2).2.log = 1 ∧
    closeCount 4 (FileDescriptor.dtor demoKernel (FileDescriptor.moveAssign ⟨3⟩ ⟨4⟩).1
      (FileDescriptor.dtor demoKernel (FileDescriptor.moveAssign ⟨3⟩ ⟨4⟩).2
        World.initial).2).2.log = 1 ∧
    unmapLengths 4096 (MemoryMapping.dtor demoKernel
      (MemoryMapping.moveAssign ⟨4096, 10⟩ ⟨8192, 20⟩).1
      (MemoryMapping.dtor demoKernel (MemoryMapping.moveAssign ⟨4096, 10⟩ ⟨8192, 20⟩).2
        World.initial).2).2.log = [10] ∧
    unmapLengths 8192 (MemoryMapping.dtor demoKernel
      (MemoryMapping.moveAssign ⟨4096, 10⟩ ⟨8192, 20⟩).1
      (MemoryMapping.dtor demoKernel (MemoryMapping.moveAssign ⟨4096, 10⟩ ⟨8192, 20⟩).2
        World.initial).2).2.log = [20] := by
  have h := C6_moveAssign_exchanges_ownership demoKernel ⟨3⟩ ⟨4⟩ ⟨4096, 10⟩ ⟨8192, 20⟩
    World.initial (by decide) (by decide)
  exact ⟨by decide, by decide, h.1, h.2.1, (h.2.2.1 3).trans (by decide),
    (h.2.2.1 4).trans (by decide), (h.2.2.2.2.1 4096).trans (by decide),
    (h.2.2.2.2.1 8192).trans (by decide)⟩

/-! ## Error reporting -/

/-- The function `setName` throws exactly when `pthread_setname_np` returns a
non-zero value, and the exception carries the value of `errno` after the call. -/
theorem setName_throws_iff (k : Kernel) (handle : Nat) (name : String) (w : World) :
    ((∃ e, (pthread.setName k handle name w).1 = .error e) ↔
        (k.respond w (.sys_pthread_setname_np handle name)).1 ≠ 0) ∧
    ((k.respond w (.sys_pthread_setname_np handle name)).1 = 0 →
        (pthread.setName k handle name w).1 = .ok ()) ∧
    (∀ e, (pthread.setName k handle name w).1 = .error e →
        e.code = (k.respond w (.sys_pthread_setname_np handle name)).2) := by
  unfold pthread.setName
  by_cases h : (k.respond w (.sys_pthread_setname_np handle name)).1 = 0
  · simp [syscall, h]
  · simp [syscall, h]

/-- C7: with `errno` zero, naming thread 1 with a 25-byte name on `demoKernel`
makes `pthread_setname_np` return 34 (`ERANGE`) without touching `errno`;
`setName` throws, and the exception carries code 0, not the 34 the call reported. -/
theorem C7_setName_reports_errno_not_the_returned_code :
    pthread.setName demoKernel 1 "a-rather-long-thread-name" World.initial =
      (.error { code := 0, what_arg := "pthread_setname_np() failed" },
       { log := [⟨.sys_pthread_setname_np 1 "a-rather-long-thread-name", 34⟩], errno := 0 }) ∧
    (demoKernel.respond World.initial
      (.sys_pthread_setname_np 1 "a-rather-long-thread-name")).1 = 34 := by
  decide

/-- The legacy constructor stores the indeterminate value, whatever length is requested. -/
theorem legacy_ctor_length_is_indeterminate (k : Kernel) (indeterminate length : Nat)
    (prot flags fd offset : Int) (w : World) (m : cyboola_core.MemoryMapping)
    (h : (cyboola_core.MemoryMapping.ctor k indeterminate length prot flags fd offset w).1 =
      .ok m) : m.length_ = indeterminate := by
  by_cases hf : (syscall k (.sys_mmap nullptr length prot flags fd offset) w).1 = MAP_FAILED
  · simp [cyboola_core.MemoryMapping.ctor, hf] at h
  · simp [cyboola_core.MemoryMapping.ctor, hf] at h
    rw [← h]

/-- C10: constructing the legacy `MemoryMapping` with length 8192 on
`demoKernel`, the storage of `length_` holding 0, succeeds with the region at
4096 and leaves `length_` equal to 0, and the destructor then calls
`munmap(4096, 0)`, not `munmap(4096, 8192)`. -/
theorem C10_legacy_ctor_does_not_record_length :
    (cyboola_core.MemoryMapping.ctor demoKernel 0 8192 1 1 3 0 World.initial).1 =
      .ok { ptr_ := 4096, length_ := 0 } ∧
    (cyboola_core.MemoryMapping.dtor demoKernel { ptr_ := 4096, length_ := 0 }
      (cyboola_core.MemoryMapping.ctor demoKernel 0 8192 1 1 3 0 World.initial).2).2.log =
      [⟨.sys_mmap nullptr 8192 1 1 3 0, 4096⟩, ⟨.sys_munmap 4096 0, 0⟩] := by
  decide

end Systematic
